import Mathlib

/-!
Shallow embedding of the bcmills/unsafeslice package: Go slice and string
headers, the `ConvertAt` / generic `ConvertTo` reinterpretation operations,
the C-string scanner `StrLen`/`OfCString`, the mutation-detection monitor
(`maybeDetectMutations`, `mutationChecker`), the `ReduceSafety` switch, and
the two variants of the internal `eventually` gate's `Block`, together with
proofs of the specification claims about them.

Machine integers are modelled as `Nat` with explicit reduction modulo
`2 ^ 64` where Go's `uintptr` arithmetic wraps; Go's signed `int` is the
interval `[-2 ^ 63, 2 ^ 63)` of `Int`.  Byte memory is a function
`Nat → Nat` from addresses to cell contents, and operations that can panic
return `Except`/`Option`.
-/

set_option autoImplicit false

/-- A Go slice header (`reflect.SliceHeader`): data pointer, length and
capacity, all machine words modelled as `Nat`. -/
structure Slice where
  data : Nat
  len : Nat
  cap : Nat
deriving DecidableEq, Repr

/-- A Go string header (`reflect.StringHeader`): data pointer and length. -/
structure GoStr where
  data : Nat
  len : Nat
deriving DecidableEq, Repr

/-- Reinterpretation of a 64-bit unsigned word as Go's signed `int`
(two's complement), as performed by the conversion `int(x)` on a 64-bit
platform. -/
def intOfUintptr (x : Nat) : Int :=
  if x < 2 ^ 63 then (x : Int) else (x : Int) - 2 ^ 64

/-- Conversion of a signed Go `int` back to an unsigned word, as performed
by `uintptr(i)` on a 64-bit platform. -/
def uintptrOfInt (i : Int) : Nat :=
  (i % (2 ^ 64 : Int)).toNat

/-- Run-time failure modes (panics) of the reinterpretation operations. -/
inductive ConvErr where
  /-- Go runtime panic from `% 0` when the destination element size is zero. -/
  | divideByZero
  /-- panic: src capacity (in bytes) is not a multiple of dst element size. -/
  | shapeCap
  /-- panic: dst capacity overflows int. -/
  | capOverflow
  /-- panic: src length (in bytes) is not a multiple of dst element size. -/
  | shapeLen
  /-- panic: dst length overflows int. -/
  | lenOverflow
  /-- panic from `unsafe.Slice` on a nil pointer with nonzero length. -/
  | nilSlice
  /-- panic from reslicing `[:dstLen]` beyond the capacity. -/
  | sliceBounds
deriving DecidableEq, Repr

/-- Embedding of `ConvertAt` (unsafeslice.go).  The `reflect` kind checks on
the argument types are assumed to have passed: the source is given directly
as a slice header and the element sizes of the source and destination types
are explicit parameters.  Following the source, `capBytes` is computed from
`sv.Len()` and `lenBytes` from `sv.Cap()`, the byte extents are `uintptr`
products (wrapping modulo `2 ^ 64`), each quotient is checked against Go's
`int` by the test `int(q) < 0 || uintptr(int(q)) != q`, and the result
header is written directly with `hdr.Cap = int(dstCap)`,
`hdr.Len = int(dstLen)` with no further validity check. -/
def convertAt (dstElemSize srcElemSize : Nat) (src : Slice) : Except ConvErr Slice :=
  let capBytes := src.len * srcElemSize % 2 ^ 64
  let lenBytes := src.cap * srcElemSize % 2 ^ 64
  if dstElemSize = 0 then .error .divideByZero
  else if capBytes % dstElemSize ≠ 0 then .error .shapeCap
  else
    let dstCap := capBytes / dstElemSize
    if intOfUintptr dstCap < 0 ∨ uintptrOfInt (intOfUintptr dstCap) ≠ dstCap then
      .error .capOverflow
    else if lenBytes % dstElemSize ≠ 0 then .error .shapeLen
    else
      let dstLen := lenBytes / dstElemSize
      if intOfUintptr dstLen < 0 ∨ uintptrOfInt (intOfUintptr dstLen) ≠ dstLen then
        .error .lenOverflow
      else .ok ⟨src.data, dstLen, dstCap⟩

/-- Embedding of the generic `ConvertTo` (the go1.18 file).  Here `capBytes`
comes from `cap(src)` and `lenBytes` from `len(src)`.  The result is built
by `unsafe.Slice((*DstElem)(ptr), dstCap)[:dstLen]`, so after the checks the
runtime additionally panics when the pointer is nil with nonzero length, or
when `dstLen` exceeds `dstCap`. -/
def convertTo (dstElemSize srcElemSize : Nat) (src : Slice) : Except ConvErr Slice :=
  let capBytes := src.cap * srcElemSize % 2 ^ 64
  let lenBytes := src.len * srcElemSize % 2 ^ 64
  if dstElemSize = 0 then .error .divideByZero
  else if capBytes % dstElemSize ≠ 0 then .error .shapeCap
  else
    let dstCap := capBytes / dstElemSize
    if intOfUintptr dstCap < 0 ∨ uintptrOfInt (intOfUintptr dstCap) ≠ dstCap then
      .error .capOverflow
    else if lenBytes % dstElemSize ≠ 0 then .error .shapeLen
    else
      let dstLen := lenBytes / dstElemSize
      if intOfUintptr dstLen < 0 ∨ uintptrOfInt (intOfUintptr dstLen) ≠ dstLen then
        .error .lenOverflow
      else if src.data = 0 ∧ dstCap ≠ 0 then .error .nilSlice
      else if dstCap < dstLen then .error .sliceBounds
      else .ok ⟨src.data, dstLen, dstCap⟩

/-- The bytes covered by a slice header in byte memory `mem`. -/
def readBytes (mem : Nat → Nat) (b : Slice) : List Nat :=
  (List.range b.len).map fun i => mem (b.data + i)

/-- FNV-64a over a byte sequence, the repository's deterministic 64-bit
hash strategy (fnvhash.go); it stands in for the pooled `hash64` provider
consulted by the monitor. -/
def fnv64a (bs : List Nat) : Nat :=
  bs.foldl (fun h b => (h ^^^ b) * 1099511628211 % 2 ^ 64) 14695981039346656037

/-- The `mutationChecker` record (maphash.go): the monitored slice header
together with the checksum of its bytes at construction time. -/
structure Checker where
  b : Slice
  checksum : Nat
deriving DecidableEq, Repr

/-- Embedding of `newMutationChecker`: checksum the monitored range at
construction time. -/
def newMutationChecker (mem : Nat → Nat) (b : Slice) : Checker :=
  ⟨b, fnv64a (readBytes mem b)⟩

/-- Embedding of `(*mutationChecker).recheck`: recompute the checksum of the
monitored range in the current memory; on a mismatch panic with a diagnostic
naming the address of the range's first byte (`some address`), otherwise
return silently (`none`). -/
def Checker.recheck (c : Checker) (mem : Nat → Nat) : Option Nat :=
  if fnv64a (readBytes mem c.b) ≠ c.checksum then some c.b.data else none

/-- Package-level monitoring state: the `safetyReducedFlag` int32 (as a
Bool: nonzero or not), plus the observable effects of
`maybeDetectMutations`: how many checksums were computed on the calling
goroutine, how many race-probe goroutines were started, and which deferred
rechecks were registered through `eventually.SetFinalizer`. -/
structure PkgState where
  safetyReducedFlag : Bool
  hashes : Nat
  probes : Nat
  registered : List Checker
deriving DecidableEq, Repr

/-- Embedding of `safetyReduced`: atomic load of the flag, true iff it is
nonzero. -/
def safetyReduced (st : PkgState) : Bool := st.safetyReducedFlag

/-- Embedding of `ReduceSafety`: in a non-race build, store 1 into the
flag; under the race detector do nothing.  `race` is the build-time
`raceEnabled` constant. -/
def reduceSafety (race : Bool) (st : PkgState) : PkgState :=
  if !race then { st with safetyReducedFlag := true } else st

/-- Embedding of `maybeDetectMutations` (unsafeslice.go): return immediately
when safety is reduced or the range is empty; otherwise compute the
checksum of the range, start the race-probe goroutine when `raceEnabled`,
and register a deferred recheck for the range. -/
def maybeDetectMutations (race : Bool) (st : PkgState) (mem : Nat → Nat) (b : Slice) :
    PkgState :=
  if safetyReduced st || b.len == 0 then st
  else
    { st with
      hashes := st.hashes + 1
      probes := st.probes + (if race then 1 else 0)
      registered := st.registered ++ [newMutationChecker mem b] }

/-- Embedding of `OfString`: build a byte-slice header whose data pointer is
the string's data pointer and whose length and capacity are the string's
length (no byte of memory is copied or written; `mem` is consulted only by
the monitor's checksum), then run `maybeDetectMutations` on it. -/
def ofString (race : Bool) (st : PkgState) (mem : Nat → Nat) (s : GoStr) :
    Slice × PkgState :=
  let b : Slice := ⟨s.data, s.len, s.len⟩
  (b, maybeDetectMutations race st mem b)

/-- Embedding of `AsString`: build a string header aliasing the slice's data
pointer with the slice's length, then run `maybeDetectMutations` on the
slice. -/
def asString (race : Bool) (st : PkgState) (mem : Nat → Nat) (b : Slice) :
    GoStr × PkgState :=
  (⟨b.data, b.len⟩, maybeDetectMutations race st mem b)

/-- Loop of `StrLen` over element memory `mem` starting at pointer `p`
(element indices, for a 1-byte element type): `n` is the count so far and
`fuel = 2 ^ 63 - n` is the number of further increments before the `int`
counter would wrap negative, at which point the source panics with
"length overflow"; fuel exhaustion (`none`) is exactly that panic. -/
def strLenAux (mem : Nat → Nat) (p : Nat) : Nat → Nat → Option Nat
  | 0, _ => none
  | fuel + 1, n => if mem (p + n) = 0 then some n else strLenAux mem p fuel (n + 1)

/-- Embedding of `StrLen`: scan forward from `p` one element at a time until
a zero element is found, returning the count of nonzero elements before it;
`none` is the "length overflow" panic. -/
def strLen (mem : Nat → Nat) (p : Nat) : Option Nat :=
  strLenAux mem p (2 ^ 63) 0

/-- Embedding of `OfCString`: `unsafe.Slice(p, StrLen(p))`, a view covering
exactly the `StrLen p` elements before the terminator. -/
def ofCString (mem : Nat → Nat) (p : Nat) : Option Slice :=
  (strLen mem p).map fun n => ⟨p, n, n⟩

/-- State of the `eventually` gate as implemented in
src/internal/eventually/eventually.go: `pendingEpochs` counts `Block` calls
whose `unblock` has not yet run, and `curClosed` records whether the channel
currently installed in `unblocked` is closed.  `init` closes the initial
channel. -/
structure GateA where
  pendingEpochs : Nat
  curClosed : Bool
deriving DecidableEq, Repr

/-- Initial gate state for the eventually.go variant: the package `init`
closes the initial `unblocked` channel, and no `Block` epoch is pending. -/
def initGateA : GateA := ⟨0, true⟩

/-- Embedding of `Block` from src/internal/eventually/eventually.go: it
unconditionally makes a fresh open channel and installs it; the body has no
failure branch, so it always returns normally (`some`). -/
def blockA (g : GateA) : Option GateA :=
  some ⟨g.pendingEpochs + 1, false⟩

/-- Embedding of `Block` from the part_001 variant of package eventually:
the state is whether `unblocked` is non-nil; when it is, `Block` panics with
"cannot Block while already blocked" (`none`), otherwise it blocks the
gate. -/
def blockB (blocked : Bool) : Option Bool :=
  if blocked then none else some true

/-- The `unblock` capability in the part_001 variant: it sets `unblocked`
back to nil (and closes the captured channel). -/
def unblockB (_ : Bool) : Bool := false

/-- C2: aliasing a string as bytes and back yields the identical string
header, and both operations alias the original data pointer rather than
copying: the views returned share the source's address, and neither
operation has write access to memory (they consult `mem` read-only for the
monitor's checksum and return no modified memory). -/
theorem c2_roundtrip_identity (race : Bool) (st st' : PkgState)
    (mem mem' : Nat → Nat) (s : GoStr) :
    (asString race st' mem' (ofString race st mem s).1).1 = s
      ∧ (ofString race st mem s).1.data = s.data
      ∧ ∀ b : Slice, (asString race st' mem' b).1.data = b.data :=
  ⟨rfl, rfl, fun _ => rfl⟩

/-- C8: on an empty byte range `maybeDetectMutations` returns the state
unchanged: no checksum is computed, no probe goroutine is started, and no
deferred recheck is registered. -/
theorem c8_empty_range_unmonitored (race : Bool) (st : PkgState) (mem : Nat → Nat)
    (b : Slice) (h : b.len = 0) :
    maybeDetectMutations race st mem b = st := by
  simp [maybeDetectMutations, h]

/-- Witness for C8: the empty-range theorem applied at a concrete state,
memory and slice header of length zero. -/
theorem c8_empty_range_unmonitored_witness :
    maybeDetectMutations true ⟨false, 0, 0, []⟩ (fun _ => 3) ⟨64, 0, 8⟩
      = ⟨false, 0, 0, []⟩ :=
  c8_empty_range_unmonitored true ⟨false, 0, 0, []⟩ (fun _ => 3) ⟨64, 0, 8⟩ rfl

/-- C10: with a destination element type of size zero, both `ConvertAt` and
`ConvertTo` reach `capBytes % dstElemSize` with `dstElemSize = 0` and hit
the Go runtime integer-division-by-zero panic, for every source slice. -/
theorem c10_zero_elem_size_divide_by_zero (srcElemSize : Nat) (s : Slice) :
    convertAt 0 srcElemSize s = .error .divideByZero
      ∧ convertTo 0 srcElemSize s = .error .divideByZero :=
  ⟨rfl, rfl⟩

/-- C1: `ConvertAt` computes `capBytes` from the source length and
`lenBytes` from the source capacity, so on a source header with length 4 and
capacity 8 over 1-byte elements converted to 4-byte elements it returns a
view with length 2 (derived from the source capacity) and capacity 1
(derived from the source length) — violating the claimed shape law
`result.len * dstElemSize = src.len * srcElemSize` (2 * 4 ≠ 4 * 1) and even
producing a header with length greater than capacity — whereas the generic
`ConvertTo` on the same header satisfies the law. -/
theorem c1_convertAt_swaps_len_and_cap :
    convertAt 4 1 ⟨16, 4, 8⟩ = .ok ⟨16, 2, 1⟩
      ∧ 2 * 4 ≠ 4 * 1
      ∧ convertTo 4 1 ⟨16, 4, 8⟩ = .ok ⟨16, 1, 2⟩ :=
  ⟨rfl, by decide, rfl⟩

/-- C4 counterexample: in the src/internal/eventually/eventually.go
implementation, calling `Block` a second time while the first epoch's
`unblock` has not been invoked does not panic: both calls return normally
and the gate ends with two pending (unreleased) epochs. -/
theorem c4_double_block_no_panic :
    blockA initGateA = some ⟨1, false⟩ ∧ blockA ⟨1, false⟩ = some ⟨2, false⟩ :=
  ⟨rfl, rfl⟩

/-- C4 (amended): in the part_001 variant of package eventually, `Block`
panics ("cannot Block while already blocked") exactly when the gate is
already blocked, so a second `Block` before the previous `unblock` aborts
and at most one blocked epoch is active in that variant. -/
theorem c4_block_panics_iff_blocked :
    blockB true = none ∧ blockB false = some true
      ∧ ∀ bl : Bool, blockB bl = none ↔ bl = true := by
  refine ⟨rfl, rfl, fun bl => ?_⟩
  cases bl <;> simp [blockB]

/-- C6: the deferred recheck on a monitored range recomputes the checksum
and compares it to the stored one.  If the bytes of the range are unchanged
between construction and recheck, the record is silently discarded with no
effect (`none`: no false positive); if the recomputed checksum disagrees
with the stored one, the process aborts with a diagnostic naming the
starting address of the range (`some b.data`). -/
theorem c6_recheck_semantics (mem mem' : Nat → Nat) (b : Slice) :
    (readBytes mem' b = readBytes mem b →
      (newMutationChecker mem b).recheck mem' = none)
    ∧ (fnv64a (readBytes mem' b) ≠ (newMutationChecker mem b).checksum →
      (newMutationChecker mem b).recheck mem' = some b.data) := by
  constructor
  · intro h
    simp [Checker.recheck, newMutationChecker, h]
  · intro h
    simp only [newMutationChecker] at h
    simp [Checker.recheck, newMutationChecker, h]

/-- Witness for C6: a recheck with unchanged memory silently passes, and a
recheck after the two monitored bytes changed panics naming address 5. -/
theorem c6_recheck_semantics_witness :
    (newMutationChecker (fun _ => 1) ⟨5, 2, 2⟩).recheck (fun _ => 1) = none
    ∧ (newMutationChecker (fun _ => 1) ⟨5, 2, 2⟩).recheck (fun i => i) = some 5 :=
  ⟨(c6_recheck_semantics (fun _ => 1) (fun _ => 1) ⟨5, 2, 2⟩).1 rfl,
   (c6_recheck_semantics (fun _ => 1) (fun i => i) ⟨5, 2, 2⟩).2 (by decide)⟩

/-- Helper for C7: when every element within the remaining fuel is nonzero,
the scan exhausts its fuel, which is the "length overflow" panic. -/
theorem strLenAux_all_nonzero (mem : Nat → Nat) (p : Nat) :
    ∀ fuel n, (∀ i, i < fuel → mem (p + (n + i)) ≠ 0) →
      strLenAux mem p fuel n = none := by
  intro fuel
  induction fuel with
  | zero => intro n _; rfl
  | succ f ih =>
    intro n h
    have h0 : mem (p + n) ≠ 0 := by
      have := h 0 (Nat.succ_pos f)
      simpa using this
    simp only [strLenAux, if_neg h0]
    exact ih (n + 1) fun i hi => by
      have := h (i + 1) (Nat.succ_lt_succ hi)
      simpa [Nat.add_assoc, Nat.add_comm, Nat.add_left_comm] using this

/-- Helper for C7: if the first zero element after position `n` is at offset
`k` and there is enough fuel, the scan returns `n + k`. -/
theorem strLenAux_finds_first_zero (mem : Nat → Nat) (p : Nat) :
    ∀ k fuel n, k < fuel → mem (p + (n + k)) = 0 →
      (∀ i, i < k → mem (p + (n + i)) ≠ 0) →
      strLenAux mem p fuel n = some (n + k) := by
  intro k
  induction k with
  | zero =>
    intro fuel n hf hz _
    obtain ⟨f, rfl⟩ := Nat.exists_eq_succ_of_ne_zero (Nat.pos_iff_ne_zero.mp hf)
    simp only [strLenAux]
    rw [if_pos (by simpa using hz), Nat.add_zero]
  | succ k ih =>
    intro fuel n hf hz hnz
    obtain ⟨f, rfl⟩ := Nat.exists_eq_succ_of_ne_zero
      (Nat.pos_iff_ne_zero.mp (Nat.lt_of_le_of_lt (Nat.zero_le _) hf))
    have h0 : mem (p + n) ≠ 0 := by
      have := hnz 0 (Nat.succ_pos k)
      simpa using this
    simp only [strLenAux, if_neg h0]
    have hz' : mem (p + (n + 1 + k)) = 0 := by
      have : n + 1 + k = n + (k + 1) := by omega
      rw [this]; exact hz
    have hnz' : ∀ i, i < k → mem (p + (n + 1 + i)) ≠ 0 := by
      intro i hi
      have : n + 1 + i = n + (i + 1) := by omega
      rw [this]
      exact hnz (i + 1) (Nat.succ_lt_succ hi)
    have := ih f (n + 1) (Nat.lt_of_succ_lt_succ hf) hz' hnz'
    rw [this]
    congr 1
    omega

/-- C7: when the first zero element lies at offset `k < 2 ^ 63` from `p`,
`StrLen` returns exactly `k`, the number of nonzero elements strictly before
the first zero, and `OfCString` returns a view starting at `p` covering
exactly those `k` elements (terminator excluded); when the first `2 ^ 63`
elements are all nonzero, the `int` counter would wrap, and the scan panics
with "length overflow" instead of returning a wrapped count. -/
theorem c7_strlen_ofcstring (mem : Nat → Nat) (p k : Nat) :
    (k < 2 ^ 63 → mem (p + k) = 0 → (∀ i, i < k → mem (p + i) ≠ 0) →
      strLen mem p = some k ∧ ofCString mem p = some ⟨p, k, k⟩)
    ∧ ((∀ i, i < 2 ^ 63 → mem (p + i) ≠ 0) →
      strLen mem p = none ∧ ofCString mem p = none) := by
  constructor
  · intro hk hz hnz
    have : strLen mem p = some k := by
      have := strLenAux_finds_first_zero mem p k (2 ^ 63) 0 hk
        (by simpa using hz) (fun i hi => by simpa using hnz i hi)
      simpa [strLen] using this
    exact ⟨this, by simp [ofCString, this]⟩
  · intro hnz
    have : strLen mem p = none := by
      have := strLenAux_all_nonzero mem p (2 ^ 63) 0
        (fun i hi => by simpa using hnz i hi)
      simpa [strLen] using this
    exact ⟨this, by simp [ofCString, this]⟩

/-- Witness for C7: a three-element string terminated at offset 3 scans to
length 3 and yields the view over those three elements, and a memory with no
zero in the first 2 ^ 63 cells makes the scan panic rather than wrap. -/
theorem c7_strlen_ofcstring_witness :
    (strLen (fun i => if i < 3 then 7 else 0) 0 = some 3
      ∧ ofCString (fun i => if i < 3 then 7 else 0) 0 = some ⟨0, 3, 3⟩)
    ∧ (strLen (fun _ => 1) 0 = none ∧ ofCString (fun _ => 1) 0 = none) :=
  ⟨(c7_strlen_ofcstring (fun i => if i < 3 then 7 else 0) 0 3).1
      (by decide) (by decide) (by decide),
   (c7_strlen_ofcstring (fun _ => 1) 0 2).2 (fun i _ => by simp)⟩

/-- C5: in a non-race build, `ReduceSafety` sets the safety-reduced flag and
every later `OfString`/`AsString` leaves the monitoring state untouched (no
checksum computed, no recheck registered); under the race detector
`ReduceSafety` is the identity, the flag is never set by it, and every
non-empty aliased range is still registered for monitoring. -/
theorem c5_reduce_safety_disables_monitoring (st : PkgState) (mem : Nat → Nat)
    (s : GoStr) (b : Slice) :
    (safetyReduced (reduceSafety false st) = true
      ∧ (ofString false (reduceSafety false st) mem s).2 = reduceSafety false st
      ∧ (asString false (reduceSafety false st) mem b).2 = reduceSafety false st)
    ∧ (reduceSafety true st = st
      ∧ (st.safetyReducedFlag = false → s.len ≠ 0 →
          (ofString true (reduceSafety true st) mem s).2.registered
            = st.registered ++ [newMutationChecker mem ⟨s.data, s.len, s.len⟩])
      ∧ (st.safetyReducedFlag = false → b.len ≠ 0 →
          (asString true (reduceSafety true st) mem b).2.registered
            = st.registered ++ [newMutationChecker mem b])) := by
  refine ⟨⟨rfl, ?_, ?_⟩, rfl, ?_, ?_⟩
  · simp [ofString, maybeDetectMutations, safetyReduced, reduceSafety]
  · simp [asString, maybeDetectMutations, safetyReduced, reduceSafety]
  · intro hflag hlen
    simp [ofString, maybeDetectMutations, safetyReduced, reduceSafety, hflag, hlen]
  · intro hflag hlen
    simp [asString, maybeDetectMutations, safetyReduced, reduceSafety, hflag, hlen]

/-- Witness for C5: at a concrete initial state, `ReduceSafety` in a
non-race build sets the flag and a subsequent `AsString` changes nothing,
while in a race build a length-1 range is still registered. -/
theorem c5_reduce_safety_disables_monitoring_witness :
    (safetyReduced (reduceSafety false ⟨false, 0, 0, []⟩) = true
      ∧ (asString false (reduceSafety false ⟨false, 0, 0, []⟩) (fun _ => 2) ⟨8, 1, 1⟩).2
          = reduceSafety false ⟨false, 0, 0, []⟩)
    ∧ (asString true (reduceSafety true ⟨false, 0, 0, []⟩) (fun _ => 2) ⟨8, 1, 1⟩).2.registered
        = PkgState.registered ⟨false, 0, 0, []⟩
            ++ [newMutationChecker (fun _ => 2) ⟨8, 1, 1⟩] :=
  ⟨⟨(c5_reduce_safety_disables_monitoring ⟨false, 0, 0, []⟩ (fun _ => 2)
        ⟨0, 0⟩ ⟨8, 1, 1⟩).1.1,
    (c5_reduce_safety_disables_monitoring ⟨false, 0, 0, []⟩ (fun _ => 2)
        ⟨0, 0⟩ ⟨8, 1, 1⟩).1.2.2⟩,
   (c5_reduce_safety_disables_monitoring ⟨false, 0, 0, []⟩ (fun _ => 2)
        ⟨0, 0⟩ ⟨8, 1, 1⟩).2.2.2 rfl (by decide)⟩

/-- C9: the safety-reduced flag is never cleared: each state-touching
operation of the package preserves a set flag, so `safetyReduced` stays true
for every subsequent call and every later `OfString`/`AsString` skips
monitoring entirely. -/
theorem c9_reduce_safety_irreversible (race : Bool) (st : PkgState)
    (mem : Nat → Nat) (s : GoStr) (b : Slice) (h : st.safetyReducedFlag = true) :
    safetyReduced st = true
    ∧ (reduceSafety race st).safetyReducedFlag = true
    ∧ (maybeDetectMutations race st mem b).safetyReducedFlag = true
    ∧ (ofString race st mem s).2.safetyReducedFlag = true
    ∧ (asString race st mem b).2.safetyReducedFlag = true
    ∧ maybeDetectMutations race st mem b = st := by
  have hskip : maybeDetectMutations race st mem b = st := by
    simp [maybeDetectMutations, safetyReduced, h]
  have hskip' : ∀ b' : Slice, maybeDetectMutations race st mem b' = st := by
    intro b'
    simp [maybeDetectMutations, safetyReduced, h]
  refine ⟨by simp [safetyReduced, h], ?_, by rw [hskip]; exact h, ?_, ?_, hskip⟩
  · cases race <;> simp [reduceSafety, h]
  · simp only [ofString]
    rw [hskip' _]
    exact h
  · simp only [asString]
    rw [hskip]
    exact h

/-- Witness for C9: at a concrete state with the flag set, every operation
leaves the flag set and monitoring is skipped. -/
theorem c9_reduce_safety_irreversible_witness :
    safetyReduced ⟨true, 1, 0, []⟩ = true
    ∧ (reduceSafety true ⟨true, 1, 0, []⟩).safetyReducedFlag = true
    ∧ (maybeDetectMutations true ⟨true, 1, 0, []⟩ (fun _ => 2) ⟨8, 1, 1⟩).safetyReducedFlag
        = true
    ∧ (ofString true ⟨true, 1, 0, []⟩ (fun _ => 2) ⟨8, 1⟩).2.safetyReducedFlag = true
    ∧ (asString true ⟨true, 1, 0, []⟩ (fun _ => 2) ⟨8, 1, 1⟩).2.safetyReducedFlag = true
    ∧ maybeDetectMutations true ⟨true, 1, 0, []⟩ (fun _ => 2) ⟨8, 1, 1⟩ = ⟨true, 1, 0, []⟩ :=
  c9_reduce_safety_irreversible true ⟨true, 1, 0, []⟩ (fun _ => 2) ⟨8, 1⟩ ⟨8, 1, 1⟩ rfl

/-- Characterization of the source's representability test: for a 64-bit
word `x`, the check `int(x) < 0 || uintptr(int(x)) != x` holds exactly when
`x` does not fit in a nonnegative Go `int`, i.e. when `2 ^ 63 ≤ x`. -/
theorem overflow_check_iff (x : Nat) (hx : x < 2 ^ 64) :
    (intOfUintptr x < 0 ∨ uintptrOfInt (intOfUintptr x) ≠ x) ↔ 2 ^ 63 ≤ x := by
  have e1 : (2 : Int) ^ 64 = 18446744073709551616 := by norm_num
  have e2 : (2 : Nat) ^ 64 = 18446744073709551616 := by norm_num
  have e3 : (2 : Nat) ^ 63 = 9223372036854775808 := by norm_num
  unfold intOfUintptr uintptrOfInt
  rw [e2] at hx
  simp only [e1, e2, e3]
  split_ifs with h
  · omega
  · omega

/-- Normal form of `convertTo` once the divisor is nonzero and both byte
extents are multiples of the destination element size: only the overflow
checks, the nil-pointer check and the reslice bound remain. -/
theorem convertTo_cases (dstElemSize srcElemSize : Nat) (s : Slice)
    (hd : dstElemSize ≠ 0)
    (hcap : s.cap * srcElemSize % 2 ^ 64 % dstElemSize = 0)
    (hlen : s.len * srcElemSize % 2 ^ 64 % dstElemSize = 0) :
    convertTo dstElemSize srcElemSize s =
      if 2 ^ 63 ≤ s.cap * srcElemSize % 2 ^ 64 / dstElemSize then .error .capOverflow
      else if 2 ^ 63 ≤ s.len * srcElemSize % 2 ^ 64 / dstElemSize then .error .lenOverflow
      else if s.data = 0 ∧ s.cap * srcElemSize % 2 ^ 64 / dstElemSize ≠ 0 then
        .error .nilSlice
      else if s.cap * srcElemSize % 2 ^ 64 / dstElemSize
          < s.len * srcElemSize % 2 ^ 64 / dstElemSize then .error .sliceBounds
      else .ok ⟨s.data, s.len * srcElemSize % 2 ^ 64 / dstElemSize,
                s.cap * srcElemSize % 2 ^ 64 / dstElemSize⟩ := by
  have hq1 : s.cap * srcElemSize % 2 ^ 64 / dstElemSize < 2 ^ 64 :=
    Nat.lt_of_le_of_lt (Nat.div_le_self _ _) (Nat.mod_lt _ (by norm_num))
  have hq2 : s.len * srcElemSize % 2 ^ 64 / dstElemSize < 2 ^ 64 :=
    Nat.lt_of_le_of_lt (Nat.div_le_self _ _) (Nat.mod_lt _ (by norm_num))
  simp only [convertTo]
  rw [if_neg hd, if_neg (not_not_intro hcap), if_neg (not_not_intro hlen),
    if_congr (overflow_check_iff _ hq1) rfl rfl,
    if_congr (overflow_check_iff _ hq2) rfl rfl]

/-- Normal form of `convertAt` under the same preconditions; note its
capacity check quotient comes from the source length and its length check
quotient from the source capacity. -/
theorem convertAt_cases (dstElemSize srcElemSize : Nat) (s : Slice)
    (hd : dstElemSize ≠ 0)
    (hcap : s.cap * srcElemSize % 2 ^ 64 % dstElemSize = 0)
    (hlen : s.len * srcElemSize % 2 ^ 64 % dstElemSize = 0) :
    convertAt dstElemSize srcElemSize s =
      if 2 ^ 63 ≤ s.len * srcElemSize % 2 ^ 64 / dstElemSize then .error .capOverflow
      else if 2 ^ 63 ≤ s.cap * srcElemSize % 2 ^ 64 / dstElemSize then .error .lenOverflow
      else .ok ⟨s.data, s.cap * srcElemSize % 2 ^ 64 / dstElemSize,
                s.len * srcElemSize % 2 ^ 64 / dstElemSize⟩ := by
  have hq1 : s.len * srcElemSize % 2 ^ 64 / dstElemSize < 2 ^ 64 :=
    Nat.lt_of_le_of_lt (Nat.div_le_self _ _) (Nat.mod_lt _ (by norm_num))
  have hq2 : s.cap * srcElemSize % 2 ^ 64 / dstElemSize < 2 ^ 64 :=
    Nat.lt_of_le_of_lt (Nat.div_le_self _ _) (Nat.mod_lt _ (by norm_num))
  simp only [convertAt]
  rw [if_neg hd, if_neg (not_not_intro hlen), if_neg (not_not_intro hcap),
    if_congr (overflow_check_iff _ hq1) rfl rfl,
    if_congr (overflow_check_iff _ hq2) rfl rfl]

/-- C3: for requests whose shape checks pass, whenever either computed
destination count (byte extent over destination element size, for length or
capacity) is not representable in Go's `int`, both `ConvertTo` and
`ConvertAt` fail with an overflow panic; and whenever they succeed, the
returned length and capacity are exactly the computed quotients, both below
`2 ^ 63` — never a wrapped value. -/
theorem c3_count_overflow_panics_never_wraps (dstElemSize srcElemSize : Nat)
    (s : Slice) (hd : dstElemSize ≠ 0)
    (hcap : s.cap * srcElemSize % 2 ^ 64 % dstElemSize = 0)
    (hlen : s.len * srcElemSize % 2 ^ 64 % dstElemSize = 0) :
    ((2 ^ 63 ≤ s.cap * srcElemSize % 2 ^ 64 / dstElemSize
        ∨ 2 ^ 63 ≤ s.len * srcElemSize % 2 ^ 64 / dstElemSize) →
      (convertTo dstElemSize srcElemSize s = .error .capOverflow
        ∨ convertTo dstElemSize srcElemSize s = .error .lenOverflow)
      ∧ (convertAt dstElemSize srcElemSize s = .error .capOverflow
        ∨ convertAt dstElemSize srcElemSize s = .error .lenOverflow))
    ∧ (∀ r, convertTo dstElemSize srcElemSize s = .ok r →
        r.cap = s.cap * srcElemSize % 2 ^ 64 / dstElemSize
          ∧ r.len = s.len * srcElemSize % 2 ^ 64 / dstElemSize
          ∧ r.cap < 2 ^ 63 ∧ r.len < 2 ^ 63)
    ∧ (∀ r, convertAt dstElemSize srcElemSize s = .ok r →
        r.cap = s.len * srcElemSize % 2 ^ 64 / dstElemSize
          ∧ r.len = s.cap * srcElemSize % 2 ^ 64 / dstElemSize
          ∧ r.cap < 2 ^ 63 ∧ r.len < 2 ^ 63) := by
  rw [convertTo_cases dstElemSize srcElemSize s hd hcap hlen,
    convertAt_cases dstElemSize srcElemSize s hd hcap hlen]
  refine ⟨?_, ?_, ?_⟩
  · intro h
    constructor
    · rcases h with h | h
      · exact Or.inl (if_pos h)
      · by_cases h2 : 2 ^ 63 ≤ s.cap * srcElemSize % 2 ^ 64 / dstElemSize
        · exact Or.inl (if_pos h2)
        · right
          rw [if_neg h2, if_pos h]
    · rcases h with h | h
      · by_cases h2 : 2 ^ 63 ≤ s.len * srcElemSize % 2 ^ 64 / dstElemSize
        · exact Or.inl (if_pos h2)
        · right
          rw [if_neg h2, if_pos h]
      · exact Or.inl (if_pos h)
  · intro r hr
    split_ifs at hr with h1 h2 h3 h4
    injection hr with h
    subst h
    exact ⟨rfl, rfl, Nat.not_le.mp h1, Nat.not_le.mp h2⟩
  · intro r hr
    split_ifs at hr with h1 h2
    injection hr with h
    subst h
    exact ⟨rfl, rfl, Nat.not_le.mp h1, Nat.not_le.mp h2⟩

/-- Witness for C3: a one-element source of element size `2 ^ 63` converted
to 1-byte elements passes both shape checks, its computed count `2 ^ 63`
does not fit in `int`, and both conversions fail with an overflow panic. -/
theorem c3_count_overflow_panics_never_wraps_witness :
    (convertTo 1 (2 ^ 63) ⟨16, 1, 1⟩ = .error .capOverflow
      ∨ convertTo 1 (2 ^ 63) ⟨16, 1, 1⟩ = .error .lenOverflow)
    ∧ (convertAt 1 (2 ^ 63) ⟨16, 1, 1⟩ = .error .capOverflow
      ∨ convertAt 1 (2 ^ 63) ⟨16, 1, 1⟩ = .error .lenOverflow) :=
  (c3_count_overflow_panics_never_wraps 1 (2 ^ 63) ⟨16, 1, 1⟩ (by decide)
      (by simp [Nat.mod_one]) (by simp [Nat.mod_one])).1 (Or.inl (by norm_num))
